import Mathlib

/-!
# Verification of the bulk-operation engine of `linear-cli`

Shallow embedding of `src/utils/bulk.ts`: the identifier collector
(`parseIds`, `readIdsFromFile`, `readIdsFromStdin`, `collectBulkIds`), the
bounded-concurrency executor (`executeBulkOperations`), and the bulk-mode
trigger (`isBulkMode`).

Modelling conventions:
* Asynchronous operations are modelled as pure functions; a caller-supplied
  operation either returns a result normally or throws a JavaScript value
  (`OpOutcome`).
* The ambient terminal state `Deno.stdout.isTerminal()` is an explicit
  `isTerminal : Bool` parameter; writes to standard output are collected in a
  `List String` of write events, in launch order.  Within a batch the real
  progress writes may interleave in completion order; the returned summary does
  not depend on that interleaving, and no theorem below inspects the contents
  of an individual progress line.
* The batch-partition `for` loop can diverge (`concurrency = 0` never advances
  the index), so it is modelled with explicit fuel; `none` means the loop did
  not finish within the given number of iterations.
* The file system is a function `String → ReadResult` (path to outcome) and
  standard input is a list of byte chunks, mirroring `Deno.stdin.readable`.
-/

/-- `BulkOperationResult` (src/utils/bulk.ts): outcome record for one id.
Optional fields model the optional TypeScript properties. -/
structure BulkOperationResult where
  id : String
  name : Option String := none
  success : Bool
  error : Option String := none
deriving DecidableEq

/-- `BulkOperationSummary` (src/utils/bulk.ts): aggregate outcome of a run. -/
structure BulkOperationSummary where
  total : Nat
  succeeded : Nat
  failed : Nat
  results : List BulkOperationResult
deriving DecidableEq

/-- `BulkExecutionOptions` (src/utils/bulk.ts); `none` models an omitted
optional property, whose default is applied by destructuring inside
`executeBulkOperations`.  `concurrency` is modelled as a natural number (the
call sites only ever pass nonnegative integers or omit it). -/
structure BulkExecutionOptions where
  showProgress : Option Bool := none
  colorEnabled : Option Bool := none
  force : Option Bool := none
  concurrency : Option Nat := none
deriving DecidableEq

/-- A thrown JavaScript value, as observed by the `catch` block of the
executor: either an `Error` instance carrying a `.message`, or any other
value together with its `String(...)` conversion. -/
inductive JsThrown where
  | errObj (message : String)
  | nonError (stringified : String)
deriving DecidableEq

/-- `error instanceof Error ? error.message : String(error)` — the single
conversion the executor applies to a thrown value. -/
def JsThrown.display : JsThrown → String
  | .errObj message => message
  | .nonError stringified => stringified

/-- Outcome of invoking the caller-supplied async operation on one id:
it either resolves with a result or rejects/throws a value. -/
inductive OpOutcome where
  | ok (r : BulkOperationResult)
  | threw (e : JsThrown)
deriving DecidableEq

/-- Body of the per-item callback inside `Promise.all` in
`executeBulkOperations`:
`try { return await operation(id) } catch (error) { return { id, success: false, error: ... } }`. -/
def runOne (op : String → OpOutcome) (id : String) : BulkOperationResult :=
  match op id with
  | .ok r => r
  | .threw e => { id := id, success := false, error := some e.display }

/-- The status line written by `updateProgress`.  `percent` models
`Math.round((completed / total) * 100)`; the exact rational rounding
(half up) used here agrees with the IEEE-double computation for all list
lengths that fit in memory, since `100 * completed / total` is never within
the double's rounding error of a half-integer without being equal to one. -/
def progressLine (colorEnabled : Bool) (completed total succeeded : Nat) : String :=
  let percent := (200 * completed + total) / (2 * total)
  let failed := completed - succeeded
  if colorEnabled then
    s!"\r⏳ Processing: {completed}/{total} ({percent}%) - ✓ {succeeded} ✗ {failed}"
  else
    s!"\rProcessing: {completed}/{total} ({percent}%) - OK: {succeeded} Failed: {failed}"

/-- The line that clears the progress display after the batch loop:
`"\r" + " ".repeat(80) + "\r"`. -/
def clearProgressLine : String :=
  "\r" ++ String.mk (List.replicate 80 ' ') ++ "\r"

/-- The batch-partition loop of `executeBulkOperations`:
`for (let i = 0; i < ids.length; i += concurrency) batches.push(ids.slice(i, i + concurrency))`.
`ids.slice(i, i + concurrency)` is `(ids.drop i).take concurrency`.
The loop diverges when `concurrency = 0` and `ids` is non-empty, so it is
modelled with fuel: `none` means the loop performed `fuel` iterations without
finishing. -/
def batchLoopFuel (ids : List String) (concurrency : Nat) :
    Nat → Nat → Option (List (List String))
  | 0, _ => none
  | fuel + 1, i =>
    if i < ids.length then
      match batchLoopFuel ids concurrency fuel (i + concurrency) with
      | none => none
      | some rest => some (((ids.drop i).take concurrency) :: rest)
    else
      some []

/-- One batch of the executor: maps the per-item callback over the batch.
`prior` is the number of successes among the results of previously completed
batches (`results.filter(r => r.success).length` as read by `updateProgress`;
the current batch's results are only pushed after the batch joins, so during
the batch this count is fixed).  Returns the batch's results in launch order,
the updated `completed` counter, and the progress writes. -/
def runBatchGo (op : String → OpOutcome) (showProgress isTerminal colorEnabled : Bool)
    (total prior : Nat) :
    List String → Nat → List BulkOperationResult × Nat × List String
  | [], completed => ([], completed, [])
  | id :: rest, completed =>
    let r := runOne op id
    let w : List String :=
      if showProgress && isTerminal then
        [progressLine colorEnabled (completed + 1) total prior]
      else []
    let tailRes := runBatchGo op showProgress isTerminal colorEnabled total prior
      rest (completed + 1)
    (r :: tailRes.1, tailRes.2.1, w ++ tailRes.2.2)

/-- The `for (const batch of batches)` loop: batches are processed strictly one
after another, with the `Promise.all` join per batch; each batch's results are
appended to the accumulated `results` only after the batch settles. -/
def runBatches (op : String → OpOutcome) (showProgress isTerminal colorEnabled : Bool)
    (total : Nat) :
    List (List String) → List BulkOperationResult → Nat →
      List BulkOperationResult × Nat × List String
  | [], results, completed => (results, completed, [])
  | b :: bs, results, completed =>
    let prior := (results.filter fun r => r.success).length
    let batchRes := runBatchGo op showProgress isTerminal colorEnabled total prior
      b completed
    let restRes := runBatches op showProgress isTerminal colorEnabled total bs
      (results ++ batchRes.1) batchRes.2.1
    (restRes.1, restRes.2.1, batchRes.2.2 ++ restRes.2.2)

/-- `executeBulkOperations` (src/utils/bulk.ts).  `isTerminal` models
`Deno.stdout.isTerminal()`; the second component of the returned pair is the
list of strings written to standard output.  `fuel` bounds the batch-partition
loop (see `batchLoopFuel`); `none` models divergence of that loop. -/
def executeBulkOperations (ids : List String) (op : String → OpOutcome)
    (options : BulkExecutionOptions) (isTerminal : Bool) (fuel : Nat) :
    Option (BulkOperationSummary × List String) :=
  let showProgress := options.showProgress.getD true
  let colorEnabled := options.colorEnabled.getD true
  let concurrency := options.concurrency.getD 5
  let total := ids.length
  match batchLoopFuel ids concurrency fuel 0 with
  | none => none
  | some batches =>
    let run := runBatches op showProgress isTerminal colorEnabled total batches [] 0
    let results := run.1
    let writes :=
      if showProgress && isTerminal then run.2.2 ++ [clearProgressLine] else run.2.2
    let succeeded := (results.filter fun r => r.success).length
    some ({ total := total, succeeded := succeeded, failed := total - succeeded,
            results := results }, writes)

/-- The JavaScript `\s` character class (WhiteSpace ∪ LineTerminator):
TAB, LF, VT, FF, CR, SP, NBSP, OGHAM SPACE MARK, the U+2000-U+200A spaces,
LS, PS, NARROW NBSP, MEDIUM MATHEMATICAL SPACE, IDEOGRAPHIC SPACE, ZWNBSP. -/
def isJsWhitespace (c : Char) : Bool :=
  c == ' ' || c == '\t' || c == '\n' || c == '\u000B' || c == '\u000C' || c == '\r' ||
  c == '\u00A0' || c == '\u1680' ||
  (0x2000 ≤ c.toNat && c.toNat ≤ 0x200A) ||
  c == '\u2028' || c == '\u2029' || c == '\u202F' || c == '\u205F' ||
  c == '\u3000' || c == '\uFEFF'

/-- The separator class of `parseIds`: the regex `[\n\r,\s]`. -/
def isIdSeparator (c : Char) : Bool :=
  c == '\n' || c == '\r' || c == ',' || isJsWhitespace c

/-- Character-level split at separator characters.  The regex
`split(/[\n\r,\s]+/)` merges adjacent separators into one delimiter (so it
produces no empty piece between two adjacent separators, only possibly at the
ends); this char-level split keeps those empty pieces, and the
`filter (length > 0)` applied by `parseIds` right after makes the two final
lists identical. -/
def splitOnSeparators : List Char → List (List Char)
  | [] => [[]]
  | c :: cs =>
    let rest := splitOnSeparators cs
    if isIdSeparator c then [] :: rest
    else
      match rest with
      | [] => [[c]]
      | t :: ts => (c :: t) :: ts

/-- JavaScript `String.prototype.trim`: removes `\s`-class code points from
both ends. -/
def trimChars (cs : List Char) : List Char :=
  ((cs.dropWhile isJsWhitespace).reverse.dropWhile isJsWhitespace).reverse

/-- `parseIds` (src/utils/bulk.ts):
`input.split(/[\n\r,\s]+/).map(id => id.trim()).filter(id => id.length > 0)`. -/
def parseIds (input : String) : List String :=
  ((splitOnSeparators input.toList).map fun cs => String.mk (trimChars cs)).filter
    fun id => id.length > 0

/-- Outcome of `Deno.readTextFile`: success, the `Deno.errors.NotFound`
condition, or any other thrown value. -/
inductive ReadResult where
  | ok (content : String)
  | notFound
  | otherError (e : JsThrown)
deriving DecidableEq

/-- `readIdsFromFile` (src/utils/bulk.ts): reads the file, parses ids;
a `NotFound` failure is rethrown as ``new Error(`File not found: ${filePath}`)``,
any other failure is rethrown unchanged. -/
def readIdsFromFile (fs : String → ReadResult) (filePath : String) :
    Except JsThrown (List String) :=
  match fs filePath with
  | .ok content => .ok (parseIds content)
  | .notFound => .error (.errObj ("File not found: " ++ filePath))
  | .otherError e => .error e

/-- One element of `new Uint8Array(chunks.flat())` in `readIdsFromStdin`.
`Array.prototype.flat` does not flatten `Uint8Array` elements (they are not
Arrays), so `chunks.flat()` is just the list of chunk objects, and the
`Uint8Array` constructor coerces each chunk with `ToUint8(ToNumber(chunk))`:
a one-element chunk stringifies to its decimal digits and yields that byte,
any other chunk stringifies to `""` or `"a,b,..."` and yields `0` (via
`ToNumber = 0` or `NaN`). -/
def chunkToByte : List Nat → Nat
  | [b] => b % 256
  | _ => 0

/-- `TextDecoder().decode`, modelled on ASCII byte streams (UTF-8 is the
identity below `0x80`); a byte `≥ 0x80` is approximated by U+FFFD.  Every
theorem below evaluates it on ASCII bytes only. -/
def decodeBytes (bs : List Nat) : String :=
  String.mk (bs.map fun b => if b < 128 then Char.ofNat b else Char.ofNat 0xFFFD)

/-- `readIdsFromStdin` (src/utils/bulk.ts): collects the chunks of
`Deno.stdin.readable`, builds `new Uint8Array(chunks.flat())` (see
`chunkToByte` for the coercion this actually performs), decodes, and parses. -/
def readIdsFromStdin (chunks : List (List Nat)) : List String :=
  parseIds (decodeBytes (chunks.map chunkToByte))

/-- The options record taken by `collectBulkIds` / `isBulkMode`; `none` models
an absent flag. -/
structure CollectOptions where
  bulk : Option (List String) := none
  bulkFile : Option String := none
  bulkStdin : Option Bool := none
deriving DecidableEq

/-- `[...new Set(allIds)]`: a JavaScript `Set` keeps the first occurrence of
each element, in insertion order. -/
def setDedup (seen : List String) : List String → List String
  | [] => []
  | x :: xs => if x ∈ seen then setDedup seen xs else x :: setDedup (x :: seen) xs

/-- `collectBulkIds` (src/utils/bulk.ts): pushes the inline `--bulk` list (when
present and non-empty), then the ids parsed from the `--bulk-file` file (when
the path is truthy, i.e. a non-empty string), then the ids parsed from stdin
(when `--bulk-stdin` was used), and deduplicates.  A failure while reading the
file propagates (rejects the whole call). -/
def collectBulkIds (options : CollectOptions) (fs : String → ReadResult)
    (stdinChunks : List (List Nat)) : Except JsThrown (List String) :=
  let fromBulk : List String :=
    match options.bulk with
    | some l => if l.length > 0 then l else []
    | none => []
  let fileRes : Except JsThrown (List String) :=
    match options.bulkFile with
    | some filePath =>
      if filePath = "" then .ok [] else readIdsFromFile fs filePath
    | none => .ok []
  match fileRes with
  | .error e => .error e
  | .ok fromFile =>
    let fromStdin : List String :=
      if options.bulkStdin.getD false then readIdsFromStdin stdinChunks else []
    .ok (setDedup [] (fromBulk ++ fromFile ++ fromStdin))

/-- `isBulkMode` (src/utils/bulk.ts):
`Boolean((options.bulk && options.bulk.length > 0) || options.bulkFile || options.bulkStdin)`.
JavaScript truthiness: a string is truthy iff non-empty; an absent flag is
`undefined`, hence falsy. -/
def isBulkMode (options : CollectOptions) : Bool :=
  (match options.bulk with
   | some l => decide (l.length > 0)
   | none => false) ||
  (match options.bulkFile with
   | some filePath => filePath != ""
   | none => false) ||
  options.bulkStdin.getD false

/-- Spec-side definition, for comparison with `isBulkMode`: the number of
identifier-source flags present, where the inline `--bulk` list counts when it
is non-empty, the `--bulk-file` flag counts when it carries a truthy (non-empty)
path, and `--bulk-stdin` counts when set. -/
def presentSourceFlagCount (options : CollectOptions) : Nat :=
  (match options.bulk with
   | some l => if l.length > 0 then 1 else 0
   | none => 0) +
  (match options.bulkFile with
   | some filePath => if filePath ≠ "" then 1 else 0
   | none => 0) +
  (if options.bulkStdin.getD false then 1 else 0)

/-- The invariant claimed of an `OperationResult`'s error field: it is
populated with a non-empty string. -/
def hasNonemptyError (r : BulkOperationResult) : Bool :=
  match r.error with
  | some e => e != ""
  | none => false

/-- A sample operation that always resolves successfully. -/
def opOk : String → OpOutcome :=
  fun id => .ok { id := id, success := true }

/-- The operation of the spec's three-item scenario: succeeds for every id
except `"B"`, for which it throws `Error("not found")`. -/
def scenarioOp : String → OpOutcome :=
  fun id => if id = "B" then .threw (.errObj "not found") else .ok { id := id, success := true }

/-- An operation that always throws `Error("not found")`. -/
def opThrowNF : String → OpOutcome :=
  fun _ => .threw (.errObj "not found")

/-- An operation that always throws `new Error()` — an `Error` whose
`.message` is the empty string. -/
def opThrowEmpty : String → OpOutcome :=
  fun _ => .threw (.errObj "")

/-- A file system holding exactly the file of the spec's tokenization
scenario. -/
def fsScenario : String → ReadResult :=
  fun p => if p = "ids.txt" then .ok "X-1\nX-2, X-3\n\nX-1" else .notFound

/-- A file system on which every read fails with `NotFound`. -/
def fsNotFound : String → ReadResult :=
  fun _ => .notFound

/-- The summary of the spec's three-item scenario. -/
def scenarioSummary : BulkOperationSummary :=
  { total := 3, succeeded := 2, failed := 1,
    results := [{ id := "A", success := true },
                { id := "B", success := false, error := some "not found" },
                { id := "C", success := true }] }

/-! ## Helper lemmas about the batch partition -/

theorem batchLoopFuel_join (ids : List String) (c : Nat) :
    ∀ fuel i bs, batchLoopFuel ids c fuel i = some bs → bs.flatten = ids.drop i := by
  intro fuel
  induction fuel with
  | zero => intro i bs h; simp [batchLoopFuel] at h
  | succ f ih =>
    intro i bs h
    by_cases hi : i < ids.length
    · rw [batchLoopFuel, if_pos hi] at h
      cases hrec : batchLoopFuel ids c f (i + c) with
      | none => rw [hrec] at h; simp at h
      | some rest =>
        rw [hrec] at h
        simp only [Option.some.injEq] at h
        subst h
        have hr := ih (i + c) rest hrec
        simp only [List.flatten_cons, hr]
        rw [← List.drop_drop, List.take_append_drop]
    · rw [batchLoopFuel, if_neg hi] at h
      simp only [Option.some.injEq] at h
      subst h
      simp [List.drop_eq_nil_of_le (Nat.le_of_not_lt hi)]

theorem batchLoopFuel_isSome (ids : List String) (c : Nat) (hc : 1 ≤ c) :
    ∀ fuel i, ids.length - i < fuel → (batchLoopFuel ids c fuel i).isSome = true := by
  intro fuel
  induction fuel with
  | zero => intro i h; omega
  | succ f ih =>
    intro i h
    by_cases hi : i < ids.length
    · have h2 : ids.length - (i + c) < f := by omega
      have h3 := ih (i + c) h2
      rw [batchLoopFuel, if_pos hi]
      cases hrec : batchLoopFuel ids c f (i + c) with
      | none => rw [hrec] at h3; simp at h3
      | some rest => simp
    · rw [batchLoopFuel, if_neg hi]; simp

theorem batchLoopFuel_length_le (ids : List String) (c : Nat) :
    ∀ fuel i bs, batchLoopFuel ids c fuel i = some bs → ∀ b ∈ bs, b.length ≤ c := by
  intro fuel
  induction fuel with
  | zero => intro i bs h; simp [batchLoopFuel] at h
  | succ f ih =>
    intro i bs h b hb
    by_cases hi : i < ids.length
    · rw [batchLoopFuel, if_pos hi] at h
      cases hrec : batchLoopFuel ids c f (i + c) with
      | none => rw [hrec] at h; simp at h
      | some rest =>
        rw [hrec] at h
        simp only [Option.some.injEq] at h
        subst h
        rcases List.mem_cons.mp hb with h1 | h2
        · subst h1; simp [List.length_take]
        · exact ih (i + c) rest hrec b h2
    · rw [batchLoopFuel, if_neg hi] at h
      simp only [Option.some.injEq] at h
      subst h
      simp at hb

theorem batchLoopFuel_eq_nil_iff (ids : List String) (c fuel i : Nat)
    (bs : List (List String)) (h : batchLoopFuel ids c fuel i = some bs) :
    bs = [] ↔ ids.length ≤ i := by
  cases fuel with
  | zero => simp [batchLoopFuel] at h
  | succ f =>
    by_cases hi : i < ids.length
    · rw [batchLoopFuel, if_pos hi] at h
      cases hrec : batchLoopFuel ids c f (i + c) with
      | none => rw [hrec] at h; simp at h
      | some rest =>
        rw [hrec] at h
        simp only [Option.some.injEq] at h
        subst h
        simp [hi, Nat.not_le.mpr hi]
    · rw [batchLoopFuel, if_neg hi] at h
      simp only [Option.some.injEq] at h
      subst h
      simp [Nat.le_of_not_lt hi]

theorem batchLoopFuel_ne_nil (ids : List String) (c : Nat) (hc : 1 ≤ c) :
    ∀ fuel i bs, batchLoopFuel ids c fuel i = some bs → ∀ b ∈ bs, b ≠ [] := by
  intro fuel
  induction fuel with
  | zero => intro i bs h; simp [batchLoopFuel] at h
  | succ f ih =>
    intro i bs h b hb
    by_cases hi : i < ids.length
    · rw [batchLoopFuel, if_pos hi] at h
      cases hrec : batchLoopFuel ids c f (i + c) with
      | none => rw [hrec] at h; simp at h
      | some rest =>
        rw [hrec] at h
        simp only [Option.some.injEq] at h
        subst h
        rcases List.mem_cons.mp hb with h1 | h2
        · subst h1
          have hlen : ((ids.drop i).take c).length = min c (ids.length - i) := by
            simp [List.length_take]
          intro hnil
          rw [hnil] at hlen
          simp only [List.length_nil] at hlen
          omega
        · exact ih (i + c) rest hrec b h2
    · rw [batchLoopFuel, if_neg hi] at h
      simp only [Option.some.injEq] at h
      subst h
      simp at hb

theorem batchLoopFuel_dropLast (ids : List String) (c : Nat) :
    ∀ fuel i bs, batchLoopFuel ids c fuel i = some bs →
      ∀ b ∈ bs.dropLast, b.length = c := by
  intro fuel
  induction fuel with
  | zero => intro i bs h; simp [batchLoopFuel] at h
  | succ f ih =>
    intro i bs h b hb
    by_cases hi : i < ids.length
    · rw [batchLoopFuel, if_pos hi] at h
      cases hrec : batchLoopFuel ids c f (i + c) with
      | none => rw [hrec] at h; simp at h
      | some rest =>
        rw [hrec] at h
        simp only [Option.some.injEq] at h
        subst h
        cases rest with
        | nil => simp at hb
        | cons r rs =>
          rw [List.dropLast_cons₂] at hb
          rcases List.mem_cons.mp hb with h1 | h2
          · subst h1
            have hne : ¬ (ids.length ≤ i + c) := by
              intro hle
              have := (batchLoopFuel_eq_nil_iff ids c f (i + c) (r :: rs) hrec).mpr hle
              simp at this
            simp only [List.length_take, List.length_drop]
            omega
          · exact ih (i + c) (r :: rs) hrec b h2
    · rw [batchLoopFuel, if_neg hi] at h
      simp only [Option.some.injEq] at h
      subst h
      simp at hb

theorem batchLoopFuel_zero_diverges (ids : List String) :
    ∀ fuel i, i < ids.length → batchLoopFuel ids 0 fuel i = none := by
  intro fuel
  induction fuel with
  | zero => intro i hi; rfl
  | succ f ih =>
    intro i hi
    rw [batchLoopFuel, if_pos hi]
    rw [Nat.add_zero, ih i hi]

/-! ## Helper lemmas about the executor -/

theorem runBatchGo_fst (op : String → OpOutcome) (sp it ce : Bool) (total prior : Nat) :
    ∀ b completed, (runBatchGo op sp it ce total prior b completed).1 =
      b.map (runOne op) := by
  intro b
  induction b with
  | nil => intro completed; rfl
  | cons x xs ih => intro completed; simp [runBatchGo, ih]

theorem runBatches_fst (op : String → OpOutcome) (sp it ce : Bool) (total : Nat) :
    ∀ bs acc completed, (runBatches op sp it ce total bs acc completed).1 =
      acc ++ bs.flatten.map (runOne op) := by
  intro bs
  induction bs with
  | nil => intro acc completed; simp [runBatches]
  | cons b bs ih =>
    intro acc completed
    simp [runBatches, ih, runBatchGo_fst, List.append_assoc]

theorem exec_spec (ids : List String) (op : String → OpOutcome)
    (options : BulkExecutionOptions) (isTerminal : Bool) (fuel : Nat)
    (s : BulkOperationSummary) (out : List String)
    (hrun : executeBulkOperations ids op options isTerminal fuel = some (s, out)) :
    s.results = ids.map (runOne op) ∧ s.total = ids.length ∧
    s.succeeded = ((ids.map (runOne op)).filter fun r => r.success).length ∧
    s.failed = ids.length - s.succeeded := by
  simp only [executeBulkOperations] at hrun
  cases hb : batchLoopFuel ids (options.concurrency.getD 5) fuel 0 with
  | none => rw [hb] at hrun; simp at hrun
  | some batches =>
    rw [hb] at hrun
    simp only [Option.some.injEq, Prod.mk.injEq] at hrun
    obtain ⟨hs, hw⟩ := hrun
    have hres : (runBatches op (options.showProgress.getD true) isTerminal
        (options.colorEnabled.getD true) ids.length batches [] 0).1 =
        ids.map (runOne op) := by
      rw [runBatches_fst]
      rw [batchLoopFuel_join ids (options.concurrency.getD 5) fuel 0 batches hb]
      simp
    subst hs
    refine ⟨hres, rfl, ?_, ?_⟩
    · simp only [hres]
    · simp only [hres]

/-! ## Helper lemmas about the identifier collector -/

theorem mem_setDedup (s : String) :
    ∀ l seen, s ∈ setDedup seen l ↔ s ∈ l ∧ s ∉ seen := by
  intro l
  induction l with
  | nil => intro seen; simp [setDedup]
  | cons x xs ih =>
    intro seen
    by_cases hx : x ∈ seen
    · rw [setDedup, if_pos hx, ih]
      constructor
      · rintro ⟨h1, h2⟩; exact ⟨List.mem_cons.mpr (Or.inr h1), h2⟩
      · rintro ⟨h1, h2⟩
        rcases List.mem_cons.mp h1 with h3 | h3
        · subst h3; exact absurd hx h2
        · exact ⟨h3, h2⟩
    · rw [setDedup, if_neg hx]
      constructor
      · intro h1
        rcases List.mem_cons.mp h1 with h3 | h3
        · exact ⟨List.mem_cons.mpr (Or.inl h3), by rw [h3]; exact hx⟩
        · rcases (ih (x :: seen)).mp h3 with ⟨h4, h5⟩
          refine ⟨List.mem_cons.mpr (Or.inr h4), fun h6 => h5 (List.mem_cons.mpr (Or.inr h6))⟩
      · rintro ⟨h1, h2⟩
        rcases List.mem_cons.mp h1 with h3 | h3
        · subst h3; exact List.mem_cons_self s _
        · by_cases hsx : s = x
          · subst hsx; exact List.mem_cons_self s _
          · refine List.mem_cons.mpr (Or.inr ((ih (x :: seen)).mpr ⟨h3, ?_⟩))
            intro h4
            rcases List.mem_cons.mp h4 with h5 | h5
            · exact hsx h5
            · exact h2 h5

theorem nodup_setDedup : ∀ (l seen : List String), (setDedup seen l).Nodup := by
  intro l
  induction l with
  | nil => intro seen; simp [setDedup]
  | cons x xs ih =>
    intro seen
    by_cases hx : x ∈ seen
    · rw [setDedup, if_pos hx]; exact ih seen
    · rw [setDedup, if_neg hx]
      refine List.nodup_cons.mpr ⟨?_, ih (x :: seen)⟩
      intro hmem
      exact ((mem_setDedup x xs (x :: seen)).mp hmem).2 (List.mem_cons_self x seen)

theorem splitOnSeparators_ne_nil (cs : List Char) : splitOnSeparators cs ≠ [] := by
  cases cs with
  | nil => simp [splitOnSeparators]
  | cons x xs =>
    rw [splitOnSeparators]
    by_cases hx : isIdSeparator x
    · rw [if_pos hx]; simp
    · rw [if_neg hx]
      cases splitOnSeparators xs with
      | nil => simp
      | cons t ts => simp

theorem splitOnSeparators_no_sep :
    ∀ (cs : List Char), ∀ t ∈ splitOnSeparators cs, ∀ c ∈ t, isIdSeparator c = false := by
  intro cs
  induction cs with
  | nil =>
    intro t ht c hc
    simp only [splitOnSeparators, List.mem_singleton] at ht
    subst ht
    simp at hc
  | cons x xs ih =>
    intro t ht c hc
    rw [splitOnSeparators] at ht
    by_cases hx : isIdSeparator x
    · rw [if_pos hx] at ht
      rcases List.mem_cons.mp ht with h1 | h2
      · subst h1; simp at hc
      · exact ih t h2 c hc
    · rw [if_neg hx] at ht
      cases hrest : splitOnSeparators xs with
      | nil => exact absurd hrest (splitOnSeparators_ne_nil xs)
      | cons t0 ts =>
        rw [hrest] at ht
        simp only at ht
        rcases List.mem_cons.mp ht with h1 | h2
        · subst h1
          rcases List.mem_cons.mp hc with h3 | h4
          · subst h3; simpa using hx
          · exact ih t0 (by rw [hrest]; exact List.mem_cons_self t0 ts) c h4
        · exact ih t (by rw [hrest]; exact List.mem_cons.mpr (Or.inr h2)) c hc

theorem mem_trimChars (c : Char) (cs : List Char) (h : c ∈ trimChars cs) : c ∈ cs := by
  unfold trimChars at h
  rw [List.mem_reverse] at h
  have h2 := (List.dropWhile_sublist isJsWhitespace
    (l := (cs.dropWhile isJsWhitespace).reverse)).subset h
  rw [List.mem_reverse] at h2
  exact (List.dropWhile_sublist isJsWhitespace (l := cs)).subset h2

theorem parseIds_mem (text s : String) (h : s ∈ parseIds text) :
    s ≠ "" ∧ ∀ c ∈ s.toList, isIdSeparator c = false := by
  unfold parseIds at h
  rw [List.mem_filter] at h
  obtain ⟨hmap, hlen⟩ := h
  rw [List.mem_map] at hmap
  obtain ⟨cs, hcs, hs⟩ := hmap
  constructor
  · intro hempty
    rw [hempty] at hlen
    simp at hlen
  · intro c hc
    subst hs
    have hc2 : c ∈ trimChars cs := hc
    exact splitOnSeparators_no_sep text.toList cs hcs c (mem_trimChars c cs hc2)

theorem if_length_pos (l : List String) : (if l.length > 0 then l else []) = l := by
  cases l <;> simp

/-! ## Claim theorems -/

/-- C1 (failure isolation): whenever `executeBulkOperations` returns a summary,
then for every position whose operation threw, the summary holds at that
position the synthesized result `{id, success: false, error}` with `error` the
thrown `Error`'s message (or the stringified value for a non-`Error`); and
every position's entry is exactly the outcome of running the per-item body on
that position's id, independent of the other ids' outcomes. -/
theorem exec_failure_isolation (ids : List String) (op : String → OpOutcome)
    (options : BulkExecutionOptions) (isTerminal : Bool) (fuel : Nat)
    (s : BulkOperationSummary) (out : List String)
    (hrun : executeBulkOperations ids op options isTerminal fuel = some (s, out)) :
    (∀ i (h : i < ids.length) (e : JsThrown), op ids[i] = .threw e →
      s.results[i]? = some { id := ids[i], success := false, error := some e.display }) ∧
    (∀ j (h : j < ids.length), s.results[j]? = some (runOne op ids[j])) := by
  have hres := (exec_spec ids op options isTerminal fuel s out hrun).1
  have hpos : ∀ j (h : j < ids.length), s.results[j]? = some (runOne op ids[j]) := by
    intro j h
    rw [hres, List.getElem?_map, List.getElem?_eq_getElem h]
    rfl
  refine ⟨?_, hpos⟩
  intro i h e he
  rw [hpos i h]
  unfold runOne
  rw [he]

/-- Witness for C1: the spec's scenario `["A", "B", "C"]` with concurrency 2,
where the operation throws `Error("not found")` for `"B"`: position 1 of the
results carries the synthesized failure. -/
theorem exec_failure_isolation_witness :
    scenarioSummary.results[1]? =
      some { id := "B", success := false, error := some "not found" } := by
  exact (exec_failure_isolation ["A", "B", "C"] scenarioOp { concurrency := some 2 }
    false 4 scenarioSummary [] (by decide)).1 1 (by decide)
    (JsThrown.errObj "not found") (by decide)

/-- C2 (summary counting): whenever `executeBulkOperations` returns a summary,
`total` is the number of ids, `results` has exactly one entry per id,
`succeeded` counts the entries with `success = true`, `failed = total -
succeeded`, and `succeeded + failed = total`. -/
theorem exec_summary_counts (ids : List String) (op : String → OpOutcome)
    (options : BulkExecutionOptions) (isTerminal : Bool) (fuel : Nat)
    (s : BulkOperationSummary) (out : List String)
    (hrun : executeBulkOperations ids op options isTerminal fuel = some (s, out)) :
    s.total = ids.length ∧ s.results.length = ids.length ∧
    s.succeeded = (s.results.filter fun r => r.success).length ∧
    s.failed = s.total - s.succeeded ∧ s.succeeded + s.failed = s.total := by
  obtain ⟨hres, htot, hsucc, hfail⟩ := exec_spec ids op options isTerminal fuel s out hrun
  have hlen : s.results.length = ids.length := by rw [hres, List.length_map]
  have hsucc2 : s.succeeded = (s.results.filter fun r => r.success).length := by
    rw [hres, hsucc]
  have hle : s.succeeded ≤ ids.length := by
    rw [hsucc]
    calc ((ids.map (runOne op)).filter fun r => r.success).length
        ≤ (ids.map (runOne op)).length := List.length_filter_le _ _
      _ = ids.length := List.length_map _ _
  refine ⟨htot, hlen, hsucc2, by rw [hfail, htot], ?_⟩
  rw [hfail, htot]
  omega

/-- Witness for C2: the counts of the spec's three-item scenario. -/
theorem exec_summary_counts_witness :
    scenarioSummary.succeeded + scenarioSummary.failed = scenarioSummary.total := by
  exact (exec_summary_counts ["A", "B", "C"] scenarioOp { concurrency := some 2 }
    false 4 scenarioSummary [] (by decide)).2.2.2.2

/-- C3 (batching and ordering): for concurrency ≥ 1 the batch-partition loop
finishes, its batches concatenate back to the input in order, every batch is
non-empty and of size at most `concurrency`, every batch except possibly the
last has size exactly `concurrency` (the bound on simultaneously unsettled
operations, since `runBatches` joins each batch before starting the next), and
the i-th entry of `results` is the outcome of the i-th input id. -/
theorem exec_batching_order (ids : List String) (op : String → OpOutcome)
    (options : BulkExecutionOptions) (isTerminal : Bool)
    (hc : 1 ≤ options.concurrency.getD 5) :
    (batchLoopFuel ids (options.concurrency.getD 5) (ids.length + 1) 0).isSome = true ∧
    (∀ bs, batchLoopFuel ids (options.concurrency.getD 5) (ids.length + 1) 0 = some bs →
      bs.flatten = ids ∧
      (∀ b ∈ bs, b ≠ [] ∧ b.length ≤ options.concurrency.getD 5) ∧
      (∀ b ∈ bs.dropLast, b.length = options.concurrency.getD 5)) ∧
    (∀ s out, executeBulkOperations ids op options isTerminal (ids.length + 1) =
        some (s, out) →
      ∀ i (h : i < ids.length), s.results[i]? = some (runOne op ids[i])) := by
  refine ⟨batchLoopFuel_isSome ids _ hc (ids.length + 1) 0 (by omega), ?_, ?_⟩
  · intro bs hbs
    refine ⟨?_, ?_, batchLoopFuel_dropLast ids _ (ids.length + 1) 0 bs hbs⟩
    · have := batchLoopFuel_join ids (options.concurrency.getD 5) (ids.length + 1) 0 bs hbs
      simpa using this
    · intro b hb
      exact ⟨batchLoopFuel_ne_nil ids _ hc (ids.length + 1) 0 bs hbs b hb,
        batchLoopFuel_length_le ids _ (ids.length + 1) 0 bs hbs b hb⟩
  · intro s out hrun i h
    have hres := (exec_spec ids op options isTerminal (ids.length + 1) s out hrun).1
    rw [hres, List.getElem?_map, List.getElem?_eq_getElem h]
    rfl

/-- Witness for C3: in the scenario run (concurrency 2), position 0 of the
results is the outcome of the first id. -/
theorem exec_batching_order_witness :
    scenarioSummary.results[0]? = some (runOne scenarioOp "A") := by
  exact (exec_batching_order ["A", "B", "C"] scenarioOp { concurrency := some 2 }
    false (by decide)).2.2 scenarioSummary [] (by decide) 0 (by decide)

/-- C10 (termination): with concurrency ≥ 1 (after the default of 5), fuel
`ids.length + 1` always suffices for the batch-partition loop, so
`executeBulkOperations` terminates with a summary; and the hypothesis is
genuine: with concurrency 0 and a non-empty id list the loop never finishes,
for any amount of fuel. -/
theorem exec_terminates :
    (∀ (ids : List String) (op : String → OpOutcome) (options : BulkExecutionOptions)
        (isTerminal : Bool), 1 ≤ options.concurrency.getD 5 →
      (executeBulkOperations ids op options isTerminal (ids.length + 1)).isSome = true) ∧
    (∀ fuel, executeBulkOperations ["A"] opOk { concurrency := some 0 } false fuel =
      none) := by
  constructor
  · intro ids op options isTerminal hc
    have h := batchLoopFuel_isSome ids (options.concurrency.getD 5) hc
      (ids.length + 1) 0 (by omega)
    obtain ⟨bs, hbs⟩ := Option.isSome_iff_exists.mp h
    simp [executeBulkOperations, hbs]
  · intro fuel
    have h := batchLoopFuel_zero_diverges ["A"] fuel 0 (by decide)
    simp [executeBulkOperations, Option.getD, h]

/-- Witness for C10: a singleton run with the default options returns a
summary. -/
theorem exec_terminates_witness :
    (executeBulkOperations ["A"] opOk {} false 2).isSome = true := by
  exact exec_terminates.1 ["A"] opOk {} false (by decide)

/-- C7 counterexample: with the default options (`showProgress` true) and an
interactive terminal, `executeBulkOperations` on an empty id list still writes
the progress-clearing line, which contains the control character CR — the
claim's "writes no progress output (no control characters) for every options
value" fails. -/
theorem exec_empty_ids_cex :
    executeBulkOperations [] opOk {} true 1 =
      some ({ total := 0, succeeded := 0, failed := 0, results := [] },
        [clearProgressLine]) ∧
    '\r' ∈ clearProgressLine.toList := by
  decide

/-- C7 as amended: for every operation and options, `executeBulkOperations`
on an empty id list returns the summary `{total: 0, succeeded: 0, failed: 0,
results: []}` and invokes the operation zero times (the right-hand side does
not depend on `op`); it writes nothing when `showProgress` is disabled or
stdout is not a terminal, and otherwise writes exactly the single
progress-clearing sequence (CR, 80 spaces, CR) — never a progress status
line. -/
theorem exec_empty_ids (op : String → OpOutcome) (options : BulkExecutionOptions)
    (isTerminal : Bool) (fuel : Nat) (hf : 1 ≤ fuel) :
    executeBulkOperations [] op options isTerminal fuel =
      some ({ total := 0, succeeded := 0, failed := 0, results := [] },
        if (options.showProgress.getD true) && isTerminal then [clearProgressLine]
        else []) := by
  cases fuel with
  | zero => omega
  | succ f => simp [executeBulkOperations, batchLoopFuel, runBatches]

/-- Witness for C7 (amended): with progress disabled nothing is written. -/
theorem exec_empty_ids_witness :
    executeBulkOperations [] opOk { showProgress := some false } false 1 =
      some ({ total := 0, succeeded := 0, failed := 0, results := [] }, []) := by
  exact exec_empty_ids opOk { showProgress := some false } false 1 (by decide)

/-- C8 counterexample: an operation that throws `new Error()` (whose
`.message` is `""`) yields a synthesized result with `success = false` and
`error = some ""` — an empty error string — so "success == true XOR a
non-empty error" fails while the claim's hypothesis (about results the
operation returns normally) holds vacuously. -/
theorem exec_result_xor_cex :
    opThrowEmpty "A" = .threw (.errObj "") ∧
    executeBulkOperations ["A"] opThrowEmpty {} false 2 =
      some ({ total := 1, succeeded := 0, failed := 1,
              results := [{ id := "A", success := false, error := some "" }] }, []) ∧
    Bool.xor ({ id := "A", success := false, error := some "" } :
        BulkOperationResult).success
      (hasNonemptyError { id := "A", success := false, error := some "" }) = false := by
  decide

/-- C8 as amended: assuming every result the operation returns normally
satisfies `success == true` XOR a non-empty `error`, and additionally every
value the operation throws carries a non-empty message/stringification, every
entry of the returned `results` satisfies the XOR; and every result
synthesized from a thrown failure has `success = false` and a non-empty
`error` equal to the thrown message. -/
theorem exec_result_xor (ids : List String) (op : String → OpOutcome)
    (options : BulkExecutionOptions) (isTerminal : Bool) (fuel : Nat)
    (s : BulkOperationSummary) (out : List String)
    (hok : ∀ id r, op id = .ok r → Bool.xor r.success (hasNonemptyError r) = true)
    (hthrow : ∀ id e, op id = .threw e → e.display ≠ "")
    (hrun : executeBulkOperations ids op options isTerminal fuel = some (s, out)) :
    (∀ r ∈ s.results, Bool.xor r.success (hasNonemptyError r) = true) ∧
    (∀ i (h : i < ids.length) (e : JsThrown), op ids[i] = .threw e →
      s.results[i]? = some { id := ids[i], success := false, error := some e.display } ∧
      e.display ≠ "") := by
  have hres := (exec_spec ids op options isTerminal fuel s out hrun).1
  constructor
  · intro r hr
    rw [hres] at hr
    obtain ⟨id, hid, hrid⟩ := List.mem_map.mp hr
    cases hop : op id with
    | ok r0 =>
      have h2 : runOne op id = r0 := by unfold runOne; rw [hop]
      rw [← hrid, h2]
      exact hok id r0 hop
    | threw e =>
      have h2 : runOne op id = { id := id, success := false, error := some e.display } := by
        unfold runOne; rw [hop]
      rw [← hrid, h2]
      have hne := hthrow id e hop
      simp [hasNonemptyError, bne_iff_ne, hne]
  · intro i h e he
    refine ⟨?_, hthrow _ e he⟩
    have hpos : s.results[i]? = some (runOne op ids[i]) := by
      rw [hres, List.getElem?_map, List.getElem?_eq_getElem h]
      rfl
    rw [hpos]
    unfold runOne
    rw [he]

/-- Witness for C8 (amended): a run whose operation throws
`Error("not found")` yields an entry satisfying the XOR invariant. -/
theorem exec_result_xor_witness :
    Bool.xor ({ id := "A", success := false, error := some "not found" } :
        BulkOperationResult).success
      (hasNonemptyError { id := "A", success := false, error := some "not found" }) =
      true := by
  refine (exec_result_xor ["A"] opThrowNF {} false 2
    { total := 1, succeeded := 0, failed := 1,
      results := [{ id := "A", success := false, error := some "not found" }] } []
    ?_ ?_ (by decide)).1
    { id := "A", success := false, error := some "not found" } (by decide)
  · intro id r hr
    exact OpOutcome.noConfusion hr
  · intro id e he
    injection he with h1
    rw [← h1]
    decide

/-- C9 counterexample: with only the `--bulk-file` flag present (a single
identifier-source flag), `isBulkMode` already returns `true`, so "returns true
exactly when more than one identifier-source flag is present" fails. -/
theorem isBulkMode_single_flag :
    isBulkMode { bulkFile := some "ids.txt" } = true ∧
    presentSourceFlagCount { bulkFile := some "ids.txt" } = 1 := by
  decide

/-- C9 as amended: `isBulkMode` returns `true` exactly when at least one
identifier-source flag is present — the inline `--bulk` list counting only
when non-empty and the `--bulk-file` path only when a non-empty string. -/
theorem isBulkMode_iff (options : CollectOptions) :
    isBulkMode options = true ↔ 1 ≤ presentSourceFlagCount options := by
  rcases options with ⟨b, f, st⟩
  rcases b with _ | l <;> rcases f with _ | p <;> rcases st with _ | s <;>
    simp only [isBulkMode, presentSourceFlagCount, Option.getD_none, Option.getD_some,
      Bool.or_eq_true, decide_eq_true_eq, bne_iff_ne] <;>
    split_ifs <;>
    simp_all

/-- C4 (collector tokenization and deduplication): with an inline id list and
a file, `collectBulkIds` returns the first-occurrence deduplication of the
inline ids followed by the file's parsed tokens; the result has no duplicates;
a string belongs to it iff it is an inline id or a token of the file text; and
every token of the file text is non-empty and free of separator characters
(whitespace, comma, CR, LF) — i.e. the tokens are exactly the maximal
separator-free runs, each distinct token appearing exactly once regardless of
how many sources produced it.  (Per the spec, only text sources are tokenized;
the inline list's entries are its tokens as given.) -/
theorem collect_tokenize_dedup (inl : List String) (text path : String)
    (fs : String → ReadResult) (chunks : List (List Nat))
    (hpath : path ≠ "") (hfs : fs path = .ok text) :
    collectBulkIds { bulk := some inl, bulkFile := some path } fs chunks =
      .ok (setDedup [] (inl ++ parseIds text)) ∧
    (setDedup [] (inl ++ parseIds text)).Nodup ∧
    (∀ s, s ∈ setDedup [] (inl ++ parseIds text) ↔ s ∈ inl ∨ s ∈ parseIds text) ∧
    (∀ s ∈ parseIds text, s ≠ "" ∧ ∀ c ∈ s.toList, isIdSeparator c = false) := by
  refine ⟨?_, nodup_setDedup _ _, ?_, fun s hs => parseIds_mem text s hs⟩
  · simp [collectBulkIds, hpath, readIdsFromFile, hfs, if_length_pos]
  · intro s
    rw [mem_setDedup]
    simp [List.mem_append]

/-- Witness for C4: the spec's scenario — file content
`"X-1\nX-2, X-3\n\nX-1"` collects to exactly `["X-1", "X-2", "X-3"]`. -/
theorem collect_tokenize_dedup_witness :
    collectBulkIds { bulk := some [], bulkFile := some "ids.txt" } fsScenario [] =
      .ok ["X-1", "X-2", "X-3"] := by
  have h := (collect_tokenize_dedup [] "X-1\nX-2, X-3\n\nX-1" "ids.txt" fsScenario []
    (by decide) (by decide)).1
  exact h.trans (congrArg Except.ok (by decide))

/-- C5 (code bug): `readIdsFromStdin` does not decode the piped stream.
`chunks.flat()` does not flatten `Uint8Array` chunks, and the `Uint8Array`
constructor coerces each chunk to a single byte (`0` for any chunk that is not
a single byte).  For the stream `"A B"` (bytes 65 32 66) delivered as one
chunk, the code returns the single token `"\u0000"` instead of the tokens of
the decoded text, `["A", "B"]`; only a stream delivered in one-byte chunks is
decoded correctly. -/
theorem readIdsFromStdin_chunk_bug :
    readIdsFromStdin [[65, 32, 66]] = [String.mk [Char.ofNat 0]] ∧
    parseIds (decodeBytes [65, 32, 66]) = ["A", "B"] ∧
    readIdsFromStdin [[65], [32], [66]] = ["A", "B"] := by
  decide

/-- C6 (file-read error handling): when the path does not exist,
`readIdsFromFile` fails with `Error("File not found: <path>")` — the supplied
path is a substring of the message — and `collectBulkIds` propagates exactly
that error (an exceptional outcome produced during collection, not an `.ok`
list of `OperationResult`s; the caller only invokes `executeBulkOperations` on
an `.ok` collection, so no per-item operation runs); any other read failure
propagates to the caller unchanged. -/
theorem readIdsFromFile_errors (path : String) (fs : String → ReadResult)
    (chunks : List (List Nat)) (inl : Option (List String)) (hpath : path ≠ "") :
    (fs path = .notFound →
      readIdsFromFile fs path = .error (.errObj ("File not found: " ++ path)) ∧
      path.toList <:+: ("File not found: " ++ path).toList ∧
      collectBulkIds { bulk := inl, bulkFile := some path } fs chunks =
        .error (.errObj ("File not found: " ++ path))) ∧
    (∀ e, fs path = .otherError e →
      readIdsFromFile fs path = .error e ∧
      collectBulkIds { bulk := inl, bulkFile := some path } fs chunks = .error e) := by
  constructor
  · intro hnf
    refine ⟨?_, ?_, ?_⟩
    · unfold readIdsFromFile
      rw [hnf]
    · have h2 : ("File not found: " ++ path).toList =
          "File not found: ".toList ++ path.toList := by
        simp [String.toList, String.data_append]
      rw [h2]
      exact (List.suffix_append _ _).isInfix
    · simp [collectBulkIds, hpath, readIdsFromFile, hnf]
  · intro e hoe
    refine ⟨?_, ?_⟩
    · unfold readIdsFromFile
      rw [hoe]
    · simp [collectBulkIds, hpath, readIdsFromFile, hoe]

/-- Witness for C6: a missing file propagates an error whose message contains
the supplied path. -/
theorem readIdsFromFile_errors_witness :
    collectBulkIds { bulkFile := some "missing.txt" } fsNotFound [] =
      .error (.errObj ("File not found: " ++ "missing.txt")) := by
  exact ((readIdsFromFile_errors "missing.txt" fsNotFound [] none (by decide)).1
    rfl).2.2
